import Mathlib

/-!
Verification of the morph Adaptive Simulated Annealing optimizer (`morph::Anneal<T>`,
an implementation of Ingber's very fast simulated re-annealing).

The C++ class is templated over a floating-point scalar type `T`; we embed it
shallowly over an arbitrary linear ordered field `F`, with the library functions it
calls (`std::exp`, `std::log`, `std::pow`, `std::numeric_limits`, the unsigned cast
and the NaN/Inf test) collected in an `Ops F` record, since their values are opaque
to the algorithm's control flow.  `morph::vVector<T>` values are embedded as `List F`.
The `vVector` header present in the repository snapshot is an older revision that
lacks the elementwise math methods the annealer calls (`exp`, `log`, `pow`, `signum`,
`mean`, `max`, `has_zero`, `has_nan_or_inf`, vector comparisons, scalar `set_from`);
those are modelled from the spec's vector-primitive description: elementwise maps and
zips, all-components comparison predicates, scalar broadcast.

The unbounded rejection-sampling loop in `generate_parameter` is given fuel and
returns `Option`; the `throw` in `complete_reanneal` becomes `Except`.  The injected
uniform random source is a stream `urand : Nat -> F` consumed through a cursor.
-/

set_option allowUnsafeReducibility true in
attribute [semireducible] Rat.mul Rat.add Rat.sub Rat.inv Rat.ofScientific

namespace Asa

variable {F : Type} [LinearOrderedField F]

/-- All-components comparison `a <= b` (vVector elementwise comparison producing an
all-true predicate, per the spec). -/
def vle (a b : List F) : Bool := (List.zipWith (fun x y => decide (x ≤ y)) a b).all id

/-- All components strictly positive: vVector `v > T{0}`. -/
def vpos (a : List F) : Bool := a.all fun v => decide (0 < v)

/-- vVector `has_zero()`: some component is exactly zero. -/
def hasZero (a : List F) : Bool := a.any fun v => decide (v = 0)

/-- vVector `mean()`: sum divided by size. -/
def mean (a : List F) : F := a.sum / (a.length : F)

/-- vVector `max()`: maximum component (the annealer only calls it on length-D
vectors, D > 0). -/
def maxOf : List F → F
  | [] => 0
  | h :: t => t.foldl max h

/-- vVector `signum()` on one component: -1, 0 or +1. -/
def signum (v : F) : F := if 0 < v then 1 else if v < 0 then -1 else 0

/-- `std::vector::resize (sz, fill)`: truncate or pad with `fill`; existing entries
are kept. -/
def resizeFill (a : List F) (sz : ℕ) (fill : F) : List F :=
  a.take sz ++ List.replicate (sz - a.length) fill

/-- Write at an index; `none` when the index is out of bounds (an out-of-bounds
`std::vector::operator[]` write is undefined behaviour). -/
def setAt : List F → ℕ → F → Option (List F)
  | [], _, _ => none
  | _ :: t, 0, v => some (v :: t)
  | h :: t, i + 1, v => (setAt t i v).map (h :: ·)

/-- The scalar library functions the annealer calls on `T`, plus the
`std::numeric_limits<T>` constants.  `toUNat` is `static_cast<unsigned int>` (which
truncates toward zero; the annealer only casts nonnegative values in its intended
runs). -/
structure Ops (F : Type) where
  exp : F → F
  log : F → F
  powf : F → F → F
  is_nan_or_inf : F → Bool
  lim_max : F
  lim_lowest : F
  eps : F
  toUNat : F → ℕ

/-- `morph::Anneal_State`. -/
inductive Anneal_State
  | Unknown
  | NeedToInit
  | NeedToStep
  | NeedToCompute
  | NeedToComputeSet
  | ReadyToStop
deriving DecidableEq

/-- Failure modes of the embedded step function: the `throw` in
`complete_reanneal`, and exhaustion of the fuel bounding the rejection-sampling
loop of `generate_parameter`. -/
inductive AErr
  | nanInfPartials
  | outOfFuel
deriving DecidableEq

/-- The `morph::Anneal<T>` instance state.  Field defaults are the C++ member
initializers. -/
structure Anneal (F : Type) [LinearOrderedField F] where
  downhill : Bool := true
  temperature_ratio_scale : F := 1 / 100000
  temperature_anneal_scale : F := 100
  cost_parameter_scale_ratio : F := 1
  acc_gen_reanneal_ratio : F := 7 / 10
  partials_samples : ℕ := 2
  f_x_best_repeat_max : ℕ := 10
  reanneal_after_steps : ℕ := 100
  x_cand : List F := []
  f_x_cand : F := 0
  x : List F := []
  f_x : F := 0
  x_best : List F := []
  f_x_best : F := 0
  f_x_best_repeats : ℕ := 0
  x_set : List (List F) := []
  f_x_set : List F := []
  num_improved : ℕ := 0
  num_worse : ℕ := 0
  num_worse_accepted : ℕ := 0
  num_accepted : ℕ := 0
  steps : ℕ := 0
  param_hist : List (List F) := []
  f_param_hist : List F := []
  state : Anneal_State := Anneal_State.Unknown
  D : ℕ := 0
  k : ℕ := 1
  k_r : ℕ := 0
  k_f : ℕ := 1
  temp : List F := []
  temp_0 : List F := []
  temp_f : List F := []
  m : List F := []
  n : List F := []
  c : List F := []
  c_cost : List F := []
  temp_cost_0 : List F := []
  temp_cost : List F := []
  range_min : List F := []
  range_max : List F := []
  rdelta : List F := []
  rmeans : List F := []
  s : List F := []
  s_max : List F := []
  partials : List F := []

instance : Inhabited (Anneal F) := ⟨{}⟩

/-- The constructor's range-copy loop `for (auto pr : param_ranges) {
range_min[i] = pr[0]; range_max[i] = pr[1]; ++i; }` over vectors resized to D:
fails (UB) when `param_ranges` has more entries than D. -/
def copyRanges : List F → List F → ℕ → List (F × F) → Option (List F × List F)
  | rmin, rmax, _, [] => some (rmin, rmax)
  | rmin, rmax, i, pr :: rest =>
    (setAt rmin i pr.1).bind fun rmin1 =>
      (setAt rmax i pr.2).bind fun rmax1 =>
        copyRanges rmin1 rmax1 (i + 1) rest

/-- `Anneal::Anneal (initial_params, param_ranges)`.  There is no validation in the
source; the only failure is the out-of-bounds write in the range-copy loop. -/
def construct (initial_params : List F) (param_ranges : List (F × F)) :
    Option (Anneal F) :=
  let Dv := initial_params.length
  (copyRanges (List.replicate Dv 0) (List.replicate Dv 0) 0 param_ranges).map fun rr =>
    { D := Dv
      range_min := rr.1
      range_max := rr.2
      rdelta := List.zipWith (· - ·) rr.2 rr.1
      rmeans := List.zipWith (fun b a => (b + a) / 2) rr.2 rr.1
      x_cand := initial_params
      x_best := initial_params
      x := initial_params
      state := Anneal_State.NeedToInit }

/-- `Anneal::init()`.  `m.set_from` / `n.set_from` broadcast a scalar to all D
dimensions (modelled from the spec; the scalar `set_from` overload is in the newer
`vVector` revision the annealer compiles against). -/
def init (ops : Ops F) (st : Anneal F) : Anneal F :=
  let fxb := if st.downhill then ops.lim_max else ops.lim_lowest
  let temp0' := resizeFill st.temp_0 st.D 1
  let m' := List.replicate st.D (-(ops.log st.temperature_ratio_scale))
  let n' := List.replicate st.D (ops.log st.temperature_anneal_scale)
  let tempf' := List.zipWith (fun t mv => t * ops.exp (-mv)) temp0' m'
  let kf' := ops.toUNat (ops.exp (mean n'))
  let c' := List.zipWith (fun mv nv => mv * ops.exp (-nv / (st.D : F))) m' n'
  let ccost' := c'.map fun cv => cv * st.cost_parameter_scale_ratio
  { st with
    f_x_best := fxb
    f_x := fxb
    f_x_cand := fxb
    x := resizeFill st.x st.D 0
    x_cand := resizeFill st.x_cand st.D 0
    x_best := resizeFill st.x_best st.D 0
    temp_0 := temp0'
    temp := resizeFill st.temp st.D 1
    s := resizeFill st.s st.D 1
    s_max := resizeFill st.s_max st.D 1
    partials := resizeFill st.partials st.D 1
    m := m'
    n := n'
    temp_f := tempf'
    k_f := kf'
    c := c'
    c_cost := ccost'
    temp_cost_0 := ccost'
    temp_cost := ccost'
    state := Anneal_State.NeedToCompute }

/-- `Anneal::cooling_schedule()`. -/
def cooling_schedule (ops : Ops F) (st : Anneal F) : Anneal F :=
  let kpow := ops.powf (st.k : F) (1 / (st.D : F))
  let apow := ops.powf (st.num_accepted : F) (1 / (st.D : F))
  { st with
    temp := List.zipWith (fun t0 cv => t0 * ops.exp (-(cv * kpow))) st.temp_0 st.c
    temp_cost :=
      List.zipWith (fun t0 cv => t0 * ops.exp (-(cv * apow))) st.temp_cost_0 st.c_cost }

/-- `Anneal::acceptance_check()`, with the uniform draw `u = rng_u.get()` passed
explicitly.  Note the source updates `x_best`/`f_x_best` with the plain comparison
`f_x_cand < f_x_best` (lines 923-924), not the downhill-aware one used for
`candidate_is_better`. -/
def acceptance_check (ops : Ops F) (st : Anneal F) (u : F) : Anneal F :=
  let better := (st.downhill && decide (st.f_x_cand < st.f_x))
      || (!st.downhill && decide (st.f_x < st.f_x_cand))
  let st1 :=
    if better then { st with num_improved := st.num_improved + 1 }
    else { st with num_worse := st.num_worse + 1 }
  let p := ops.exp (-(st.f_x_cand - st.f_x) / (ops.eps + mean st.temp_cost))
  let accepted := decide (u < p)
  let st2 :=
    if !better && accepted then
      { st1 with num_worse_accepted := st1.num_worse_accepted + 1 }
    else st1
  if accepted then
    let st3 :=
      { st2 with
        x := st.x_cand
        f_x := st.f_x_cand
        param_hist := st2.param_hist ++ [st.x_cand]
        f_param_hist := st2.f_param_hist ++ [st.f_x_cand]
        f_x_best_repeats :=
          st2.f_x_best_repeats + (if st.f_x_cand = st.f_x_best then 1 else 0) }
    let st4 :=
      if st.f_x_cand < st.f_x_best then
        { st3 with f_x_best_repeats := 0, x_best := st.x_cand, f_x_best := st.f_x_cand }
      else st3
    { st4 with num_accepted := st4.num_accepted + 1 }
  else st2

/-- `Anneal::generate_parameter (x_start, force_change)`: rejection sampling of a
candidate within the bounds, with fuel bounding the unbounded source loop.  Each
attempt draws D uniforms from the stream at the cursor. -/
def generate_parameter (ops : Ops F) (urand : ℕ → F) (st : Anneal F)
    (x_start : List F) (force_change : Bool) : ℕ → ℕ → Option (List F × ℕ)
  | 0, _ => none
  | fuel + 1, cur =>
    let u : List F := (List.range st.D).map fun i => urand (cur + i)
    let u2 := u.map fun ui => |2 * ui - 1|
    let sigu := u.map fun ui => signum (ui - 1 / 2)
    let y := List.zipWith (fun se te => se.1 * te * (ops.powf (1 / te + 1) se.2 - 1))
      (sigu.zip u2) st.temp
    let x_new := List.zipWith (· + ·) x_start y
    let ok := vle x_new st.range_max && vle st.range_min x_new
    let ok := if force_change && hasZero (List.zipWith (· - ·) x_new x_start)
      then false else ok
    if ok then some (x_new, cur + st.D)
    else generate_parameter ops urand st x_start force_change fuel (cur + st.D)

/-- `Anneal::generate_next()`: `x_cand = generate_parameter (x)`. -/
def generate_next (ops : Ops F) (urand : ℕ → F) (st : Anneal F) (cur fuel : ℕ) :
    Option (Anneal F × ℕ) :=
  (generate_parameter ops urand st st.x false fuel cur).map fun r =>
    ({ st with x_cand := r.1 }, r.2)

/-- `Anneal::stop_check()`. -/
def stop_check (st : Anneal F) : Bool :=
  decide (st.f_x_best_repeat_max ≤ st.f_x_best_repeats)

/-- `Anneal::accepted_vs_generated()`. -/
def accepted_vs_generated (st : Anneal F) : F :=
  (st.num_accepted : F) / ((st.num_improved + st.num_worse : ℕ) : F)

/-- `Anneal::reset_stats()`: resets the four counters and `k_r` (and nothing
else). -/
def reset_stats (st : Anneal F) : Anneal F :=
  { st with
    num_improved := 0
    num_worse := 0
    num_worse_accepted := 0
    num_accepted := 0
    k_r := 0 }

/-- The loop of `Anneal::reanneal_test()` filling `x_set` with `count`
forced-change candidates generated from `x`. -/
def generate_set (ops : Ops F) (urand : ℕ → F) (st : Anneal F) :
    ℕ → ℕ → ℕ → Option (List (List F) × ℕ)
  | 0, cur, _ => some ([], cur)
  | cnt + 1, cur, fuel =>
    (generate_parameter ops urand st st.x true fuel cur).bind fun r =>
      (generate_set ops urand st cnt r.2 fuel).map fun rr => (r.1 :: rr.1, rr.2)

/-- `Anneal::reanneal_test()`: returns the trigger decision together with the
state (with `x_set`/`f_x_set` resized and `x_set` refilled when triggering) and
the advanced cursor. -/
def reanneal_test (ops : Ops F) (urand : ℕ → F) (st : Anneal F) (cur fuel : ℕ) :
    Option (Anneal F × Bool × ℕ) :=
  if st.k_r < st.reanneal_after_steps
      && decide (st.acc_gen_reanneal_ratio ≤ accepted_vs_generated st) then
    some (st, false, cur)
  else
    (generate_set ops urand st st.partials_samples cur fuel).map fun r =>
      ({ st with x_set := r.1, f_x_set := resizeFill st.f_x_set st.partials_samples 0 },
        true, r.2)

/-- The averaged sensitivity estimate computed at the top of
`Anneal::complete_reanneal()`:
`partials = mean_i ((f_x_set[i] - f_x) / (x_set[i] - x))` (elementwise). -/
def partials_of (st : Anneal F) : List F :=
  let base := st.partials.map fun _ => (0 : F)
  let acc := (List.range st.partials_samples).foldl
    (fun acc i =>
      List.zipWith (· + ·) acc
        (List.zipWith (fun a b => (st.f_x_set.getD i 0 - st.f_x) / (a - b))
          (st.x_set.getD i []) st.x))
    base
  acc.map fun v => v / (st.partials_samples : F)

/-- The sensitivities `s = -rdelta * partials`. -/
def s_of (st : Anneal F) (p : List F) : List F :=
  List.zipWith (· * ·) (st.rdelta.map fun v => -v) p

/-- The rescaled temperature `temp_re = temp * (s.max() / s)`. -/
def temp_re_of (st : Anneal F) (p : List F) : List F :=
  List.zipWith (· * ·) st.temp ((s_of st p).map fun si => maxOf (s_of st p) / si)

/-- The source's recomputation of the step index in `complete_reanneal`:
`static_cast<unsigned int>(((temp_0/temp_re).log() / c).pow(D).mean())` —
elementwise log and pow, then mean, then a truncating cast. -/
def k_re_code (ops : Ops F) (st : Anneal F) (temp_re : List F) : ℕ :=
  let q1 := List.zipWith (· / ·) st.temp_0 temp_re
  let q2 := List.map ops.log q1
  let q3 := List.zipWith (· / ·) q2 st.c
  let q4 := List.map (fun v => ops.powf v (st.D : F)) q3
  ops.toUNat (mean q4)

/-- `Anneal::complete_reanneal()`. -/
def complete_reanneal (ops : Ops F) (st : Anneal F) : Except AErr (Anneal F) :=
  let p := partials_of st
  if p.any ops.is_nan_or_inf then Except.error AErr.nanInfPartials
  else if hasZero p then Except.ok (reset_stats { st with partials := p })
  else
    let s' := s_of st p
    let temp_re := temp_re_of st p
    let st1 := { st with partials := p, s := s' }
    if vpos temp_re then
      Except.ok (reset_stats { st1 with k := k_re_code ops st temp_re, temp := temp_re })
    else
      Except.ok (reset_stats st1)

/-- The portion of `Anneal::step()` between the stop check and `reanneal_test`:
cooling schedule, acceptance check (consuming one uniform draw), candidate
generation, and the `k`/`k_r` increments.  This is the state `reanneal_test` (and
hence `accepted_vs_generated`) is evaluated on. -/
def step_to_test (ops : Ops F) (urand : ℕ → F) (st : Anneal F) (cur fuel : ℕ) :
    Option (Anneal F × ℕ) :=
  let st1 := cooling_schedule ops st
  let st2 := acceptance_check ops st1 (urand cur)
  (generate_next ops urand st2 (cur + 1) fuel).map fun r =>
    ({ r.1 with k := r.1.k + 1, k_r := r.1.k_r + 1 }, r.2)

/-- `Anneal::step()`. -/
def step (ops : Ops F) (urand : ℕ → F) (st0 : Anneal F) (cur fuel : ℕ) :
    Except AErr (Anneal F × ℕ) :=
  let stA := { st0 with steps := st0.steps + 1 }
  match
    (if stA.state = Anneal_State.NeedToComputeSet then
      (complete_reanneal ops stA).map fun sr => { sr with state := Anneal_State.NeedToStep }
    else Except.ok stA) with
  | Except.error e => Except.error e
  | Except.ok st1 =>
    if stop_check st1 then Except.ok ({ st1 with state := Anneal_State.ReadyToStop }, cur)
    else
      match step_to_test ops urand st1 cur fuel with
      | none => Except.error AErr.outOfFuel
      | some (st5, cur5) =>
        match reanneal_test ops urand st5 cur5 fuel with
        | none => Except.error AErr.outOfFuel
        | some (st6, trig, cur6) =>
          Except.ok
            ({ st6 with
                state := if trig then Anneal_State.NeedToComputeSet
                  else Anneal_State.NeedToCompute },
              cur6)

/-- The spec's version of the reannealed step index: the same reduction pipeline
as `k_re_code` (elementwise log and pow, then mean) but finished by rounding the
scalar to the NEAREST integer, following the spec's words
`k_re = round(mean(((temp_0/temp_re).log() / c).pow(D)))`.  Stated over `ℚ` where
`round` is available; used to compare against the source's truncating cast. -/
def k_re_round_spec (ops : Ops ℚ) (st : Anneal ℚ) (temp_re : List ℚ) : ℤ :=
  let q1 := List.zipWith (· / ·) st.temp_0 temp_re
  let q2 := List.map ops.log q1
  let q3 := List.zipWith (· / ·) q2 st.c
  let q4 := List.map (fun v => ops.powf v (st.D : ℚ)) q3
  round (mean q4)

/-!  Concrete instantiation over `ℚ` used for witnesses and counterexamples.  The
scalar library functions are parameters of the embedding (the C++ class is
templated over `T`); the stand-ins below satisfy the properties of `exp`/`pow`
that the evaluated runs rely on (`exp 0 = 1`, `exp z > 1` for `z > 0`,
`exp z ∈ (0,1)` for `z < 0`, `pow b 1 = b`), and `toUNat` truncates like
`static_cast<unsigned int>` does on nonnegative values. -/

/-- Scalar ops over `ℚ` for concrete evaluation. -/
def opsQ : Ops ℚ :=
  { exp := fun z => if z < 0 then 1 / 2 else if z = 0 then 1 else 2
    log := fun _ => 0
    powf := fun b e => if e = 0 then 1 else b
    is_nan_or_inf := fun _ => false
    lim_max := 1000000
    lim_lowest := -1000000
    eps := 1
    toUNat := fun q => (⌊q⌋).toNat }

/-- Scalar ops over `ℚ` with an injective stand-in for `log` (used where the
value flowing through `log` must be visible in the result). -/
def opsQid : Ops ℚ := { opsQ with log := id }

/-- A deterministic uniform source that always returns 0 (the spec's
always-accept random source). -/
def urand0 : ℕ → ℚ := fun _ => 0

/-- Unwrap a step result, defaulting on error (never hit in the evaluated
runs). -/
def exOk : Except AErr (Anneal ℚ × ℕ) → Anneal ℚ × ℕ
  | Except.ok r => r
  | Except.error _ => ({}, 0)

/-- The constructed state of the spec's termination scenario: D = 1, initial
x = [3], range [-5,5], with `f_x_best_repeat_max` set to 1 before `init()`. -/
def c4_st0 : Anneal ℚ :=
  { (construct [(3 : ℚ)] [(-5, 5)]).getD {} with f_x_best_repeat_max := 1 }

/-- The scenario state after `init()`. -/
def c4_sti : Anneal ℚ := init opsQ c4_st0

/-- First `step()` call, the caller having supplied the constant objective 9
for `x_cand`. -/
def c4_s1 : Anneal ℚ × ℕ := exOk (step opsQ urand0 { c4_sti with f_x_cand := 9 } 0 4)

/-- Second `step()` call. -/
def c4_s2 : Anneal ℚ × ℕ := exOk (step opsQ urand0 { c4_s1.1 with f_x_cand := 9 } c4_s1.2 4)

/-- Third `step()` call. -/
def c4_s3 : Anneal ℚ × ℕ := exOk (step opsQ urand0 { c4_s2.1 with f_x_cand := 9 } c4_s2.2 4)

/-- C3 counterexample: the claim says construction fails with a precondition
error whenever D = 0, but the source constructor performs no validation: an
empty initial-parameter vector constructs successfully and yields a usable
object in state `NeedToInit`. -/
theorem construct_d0_succeeds :
    (construct ([] : List ℚ) []).isSome = true ∧
    (construct ([] : List ℚ) []).map (fun st => st.state) =
      some Anneal_State.NeedToInit := by
  exact ⟨rfl, rfl⟩

/-- C3 (amended): the constructor performs no validation.  D = 0 construction
succeeds in state `NeedToInit`; when `param_ranges` is longer than
`initial_params` (the spec scenario: lengths 2 vs 3) the range-copy loop indexes
`range_min` out of bounds — undefined behaviour, modelled as construction
failure — so no usable object results, but not via a checked precondition; and
when `initial_params` is longer than `param_ranges` construction succeeds with
the uncopied range entries left at 0. -/
theorem construct_no_validation :
    (construct ([] : List ℚ) []).map (fun st => st.state) =
      some Anneal_State.NeedToInit ∧
    construct [(1 : ℚ), 2] [(0, 1), (0, 1), (0, 1)] = none ∧
    (construct [(1 : ℚ), 2, 3] [(0, 1), (0, 1)]).map
        (fun st => (st.state, st.range_min, st.range_max)) =
      some (Anneal_State.NeedToInit, [0, 0, 0], [1, 1, 0]) := by
  exact ⟨rfl, rfl, rfl⟩

/-- C4 counterexample: in the spec's termination scenario
(`f_x_best_repeat_max = 1`, constant objective 9, always-accept random source),
after the first accepted step the run is still in `NeedToCompute` — indeed the
second call also accepts (tie with the best) and only the third call reaches
`ReadyToStop`, so the stop is not reached within one accepted step. -/
theorem const_objective_not_one_accept :
    c4_s1.1.num_accepted = 1 ∧ c4_s1.1.state = Anneal_State.NeedToCompute ∧
    c4_s2.1.num_accepted = 2 ∧ c4_s2.1.state = Anneal_State.NeedToCompute := by
  exact ⟨rfl, rfl, rfl, rfl⟩

/-- C4 (amended): with `f_x_best_repeat_max = 1` and a constant objective, the
run reaches `ReadyToStop` within two accepted steps: the first acceptance
establishes `f_x_best`, the second (an exact tie) makes `f_x_best_repeats = 1`,
and the following `step()` call stops. -/
theorem const_objective_two_accepts :
    c4_s1.1.f_x_best = 9 ∧ c4_s1.1.f_x_best_repeats = 0 ∧
    c4_s2.1.f_x_best_repeats = 1 ∧
    c4_s3.1.state = Anneal_State.ReadyToStop ∧ c4_s3.1.num_accepted = 2 := by
  exact ⟨rfl, rfl, rfl, rfl, rfl⟩

/-- A reachable-shaped maximization state: `downhill = false`, current point
`x = [0]` with objective 5 (also the best so far), candidate `x_cand = [1]` with
strictly larger (i.e. strictly better) objective 7. -/
def c1_st : Anneal ℚ :=
  { downhill := false
    D := 1
    x := [0]
    f_x := 5
    x_cand := [1]
    f_x_cand := 7
    x_best := [0]
    f_x_best := 5
    temp_cost := [1]
    range_min := [-10]
    range_max := [10]
    temp := [1]
    temp_0 := [1]
    state := Anneal_State.NeedToStep }

/-- The acceptance check on `c1_st` with uniform draw 1/4 (the candidate is
accepted: p = exp(-1) = 1/2 > 1/4). -/
def c1_res : Anneal ℚ := acceptance_check opsQ c1_st (1 / 4)

/-- C1: evaluation at the failing input.  In maximization mode
(`downhill = false`) an accepted candidate whose objective 7 is strictly better
(greater) than `f_x_best = 5` is counted as an improvement and becomes the
current point, yet `x_best`/`f_x_best` are NOT updated, because lines 923-924
compare with the plain `<` of minimization instead of the downhill-aware
comparator. -/
theorem best_update_ignores_downhill :
    c1_st.downhill = false ∧
    c1_st.f_x_best < c1_st.f_x_cand ∧
    c1_res.num_improved = 1 ∧
    c1_res.num_accepted = 1 ∧
    c1_res.x = [1] ∧
    c1_res.f_x = 7 ∧
    c1_res.x_best = [0] ∧
    c1_res.f_x_best = 5 := by
  exact ⟨rfl, by decide, rfl, rfl, rfl, rfl, rfl, rfl⟩

/-- A state about to complete a reanneal, with `f_x_best_repeats = 5` and all
probe objectives equal to `f_x` (so `partials` is zero and the degenerate
branch resets the statistics). -/
def c2_st : Anneal ℚ :=
  { D := 1
    partials_samples := 1
    x := [0]
    f_x := 3
    x_set := [[1]]
    f_x_set := [3]
    partials := [1]
    f_x_best_repeats := 5
    num_improved := 2
    num_worse := 3
    num_worse_accepted := 1
    num_accepted := 4
    k_r := 7
    k := 9
    temp := [1]
    temp_0 := [1]
    c := [1]
    rdelta := [1]
    state := Anneal_State.NeedToComputeSet }

/-- C2: evaluation at the failing input.  `complete_reanneal()` calls
`reset_stats()`, which resets `num_improved`, `num_worse`,
`num_worse_accepted`, `num_accepted` and `k_r` — but NOT `f_x_best_repeats`,
which stays at 5 although the field's own documentation (and the spec) say it
is reset on reanneal. -/
theorem complete_reanneal_keeps_repeats :
    (complete_reanneal opsQ c2_st).map
        (fun s => (s.f_x_best_repeats, s.num_improved, s.num_worse,
          s.num_worse_accepted, s.num_accepted, s.k_r)) =
      Except.ok (5, 0, 0, 0, 0, 0) := by
  exact rfl

/-- A state about to complete a reanneal whose rescaled temperature is
`[5]` and whose `k`-recomputation pipeline yields the scalar mean 3/2 (using the
injective stand-in for `log`). -/
def c5_st : Anneal ℚ :=
  { D := 1
    partials_samples := 1
    x := [0]
    f_x := 0
    x_set := [[2]]
    f_x_set := [4]
    partials := [1]
    rdelta := [1]
    temp := [5]
    temp_0 := [15 / 2]
    c := [1]
    k := 42
    state := Anneal_State.NeedToComputeSet }

/-- C5 counterexample: at `c5_st` the rescaled temperature is `[5]` (all
positive) and the mean of the recomputation pipeline is 3/2; the source's
`static_cast<unsigned int>` truncates it to k = 1, whereas the spec's claimed
rounding to the nearest integer gives 2. -/
theorem reanneal_k_truncates_not_rounds :
    temp_re_of c5_st (partials_of c5_st) = [5] ∧
    vpos (temp_re_of c5_st (partials_of c5_st)) = true ∧
    (complete_reanneal opsQid c5_st).map (fun s => s.k) = Except.ok 1 ∧
    k_re_round_spec opsQid c5_st [5] = 2 ∧
    (1 : ℤ) ≠ 2 := by
  exact ⟨rfl, rfl, rfl, by decide, by decide⟩

/-- C5 (amended): when `partials` is finite with no zero component and every
component of `temp_re` is strictly positive, `complete_reanneal()` sets
`k = k_re` and `temp = temp_re`, where `k_re` is the elementwise-log-and-pow /
mean pipeline finished by the TRUNCATING unsigned cast (`k_re_code`), not by
rounding to nearest; otherwise `k` and `temp` are left unchanged. -/
theorem complete_reanneal_k_update (ops : Ops F) (st : Anneal F)
    (hnan : (partials_of st).any ops.is_nan_or_inf = false)
    (hzero : hasZero (partials_of st) = false) :
    (vpos (temp_re_of st (partials_of st)) = true →
      (complete_reanneal ops st).map (fun s => (s.k, s.temp)) =
        Except.ok (k_re_code ops st (temp_re_of st (partials_of st)),
          temp_re_of st (partials_of st))) ∧
    (vpos (temp_re_of st (partials_of st)) = false →
      (complete_reanneal ops st).map (fun s => (s.k, s.temp)) =
        Except.ok (st.k, st.temp)) := by
  constructor <;> intro hp <;>
    simp [complete_reanneal, hnan, hzero, hp, reset_stats, Except.map]

/-- Witness for `complete_reanneal_k_update` at the concrete state `c5_st`
(hypotheses hold there by evaluation). -/
theorem complete_reanneal_k_update_witness :
    (complete_reanneal opsQid c5_st).map (fun s => (s.k, s.temp)) =
      Except.ok (k_re_code opsQid c5_st (temp_re_of c5_st (partials_of c5_st)),
        temp_re_of c5_st (partials_of c5_st)) :=
  (complete_reanneal_k_update opsQid c5_st rfl rfl).1 rfl

/-- C7: the post-state of `init()`: `m = -log(temperature_ratio_scale)`
broadcast to D dimensions, `n = log(temperature_anneal_scale)`,
`c = m * exp(-n/D)`, `c_cost = c * cost_parameter_scale_ratio`,
`temp_cost_0 = temp_cost = c_cost`, `temp_0 = temp = 1` in every dimension,
`temp_f = temp_0 * exp(-m)`; `f_x_best` is the `numeric_limits` max sentinel
when `downhill` and the lowest sentinel otherwise, mirrored by `f_x` and
`f_x_cand`; and the state becomes `NeedToCompute`.  The hypotheses say `init`
runs on a freshly constructed object (where the temperature vectors are still
default-constructed empty), as the lifecycle requires. -/
theorem init_post_state (ops : Ops F) (st : Anneal F)
    (ht0 : st.temp_0 = []) (ht : st.temp = []) :
    (init ops st).m = List.replicate st.D (-(ops.log st.temperature_ratio_scale)) ∧
    (init ops st).n = List.replicate st.D (ops.log st.temperature_anneal_scale) ∧
    (init ops st).c =
      List.zipWith (fun mv nv => mv * ops.exp (-nv / (st.D : F)))
        (init ops st).m (init ops st).n ∧
    (init ops st).c_cost =
      (init ops st).c.map (fun cv => cv * st.cost_parameter_scale_ratio) ∧
    (init ops st).temp_cost_0 = (init ops st).c_cost ∧
    (init ops st).temp_cost = (init ops st).c_cost ∧
    (init ops st).temp_0 = List.replicate st.D 1 ∧
    (init ops st).temp = List.replicate st.D 1 ∧
    (init ops st).temp_f =
      List.zipWith (fun t mv => t * ops.exp (-mv))
        (init ops st).temp_0 (init ops st).m ∧
    (init ops st).f_x_best = (if st.downhill then ops.lim_max else ops.lim_lowest) ∧
    (init ops st).f_x = (init ops st).f_x_best ∧
    (init ops st).f_x_cand = (init ops st).f_x_best ∧
    (init ops st).state = Anneal_State.NeedToCompute := by
  refine ⟨rfl, rfl, rfl, rfl, rfl, rfl, ?_, ?_, rfl, rfl, rfl, rfl, rfl⟩ <;>
    simp [init, ht0, ht, resizeFill]

/-- Witness for `init_post_state` at the freshly constructed scenario state. -/
theorem init_post_state_witness :
    (init opsQ c4_st0).temp_0 = List.replicate c4_st0.D 1 ∧
    (init opsQ c4_st0).state = Anneal_State.NeedToCompute := by
  obtain ⟨-, -, -, -, -, -, h7, -, -, -, -, -, h13⟩ :=
    init_post_state opsQ c4_st0 rfl rfl
  exact ⟨h7, h13⟩

/-- Helper: the trigger decision of `reanneal_test` is the negation of
`k_r < reanneal_after_steps && accepted_vs_generated >= acc_gen_reanneal_ratio`. -/
theorem reanneal_trigger_cond (ops : Ops F) (urand : ℕ → F) (st : Anneal F)
    (cur fuel : ℕ) (r : Anneal F × Bool × ℕ)
    (hr : reanneal_test ops urand st cur fuel = some r) :
    r.2.1 = true ↔
      ¬(st.k_r < st.reanneal_after_steps ∧
        st.acc_gen_reanneal_ratio ≤ accepted_vs_generated st) := by
  unfold reanneal_test at hr
  split at hr
  case isTrue h =>
    simp only [Option.some.injEq] at hr
    simp only [Bool.and_eq_true, decide_eq_true_eq] at h
    rw [← hr]
    simp [h.1, h.2]
  case isFalse h =>
    obtain ⟨a, -, hb⟩ := Option.map_eq_some'.mp hr
    rw [← hb]
    simp only [Bool.and_eq_true, decide_eq_true_eq] at h
    simpa using h

/-- C8: `reanneal_test()` triggers a reanneal iff NOT
(`k_r < reanneal_after_steps` AND the acceptance ratio is at least
`acc_gen_reanneal_ratio`); consequently, whenever the ratio is at or above the
threshold, the trigger fires exactly when `k_r` has reached
`reanneal_after_steps` (and `k_r` is reset to 0 on each reanneal completion, so
this is the cadence between resets). -/
theorem reanneal_test_decision (ops : Ops F) (urand : ℕ → F) (st : Anneal F)
    (cur fuel : ℕ) (r : Anneal F × Bool × ℕ)
    (hr : reanneal_test ops urand st cur fuel = some r) :
    (r.2.1 = true ↔
      ¬(st.k_r < st.reanneal_after_steps ∧
        st.acc_gen_reanneal_ratio ≤ accepted_vs_generated st)) ∧
    (st.acc_gen_reanneal_ratio ≤ accepted_vs_generated st →
      (r.2.1 = true ↔ st.reanneal_after_steps ≤ st.k_r)) := by
  have h := reanneal_trigger_cond ops urand st cur fuel r hr
  refine ⟨h, fun hb => ?_⟩
  rw [h]
  simp [hb, Nat.not_lt]

/-- A state with one generated candidate counted and accepted: the acceptance
ratio is 1 and `k_r = 1`, so no reanneal triggers. -/
def c8_st : Anneal ℚ :=
  { D := 1
    x := [0]
    x_cand := [0]
    num_improved := 1
    num_accepted := 1
    k_r := 1
    temp := [1]
    range_min := [-1]
    range_max := [1]
    state := Anneal_State.NeedToStep }

/-- The concrete result of `reanneal_test` at `c8_st`. -/
def c8_r : Anneal ℚ × Bool × ℕ :=
  (reanneal_test opsQ urand0 c8_st 0 1).getD ({}, false, 0)

/-- Witness for `reanneal_test_decision` at `c8_st` (ratio 1 is above the 7/10
threshold and `k_r = 1 < 100`, so the trigger is off). -/
theorem reanneal_test_decision_witness :
    c8_r.2.1 = true ↔ c8_st.reanneal_after_steps ≤ c8_st.k_r :=
  (reanneal_test_decision opsQ urand0 c8_st 0 1 c8_r rfl).2 (by decide)

/-- C9: degenerate-sensitivity handling in `complete_reanneal()`: with a
NaN/Inf-free `partials` that has a zero component, or whose rescaled
temperature is not everywhere positive, the call succeeds, leaves `k` and
`temp` unchanged, and resets the statistics counters to 0; and the call fails
exactly when `partials` contains NaN or Inf. -/
theorem complete_reanneal_degenerate (ops : Ops F) (st : Anneal F) :
    ((partials_of st).any ops.is_nan_or_inf = false →
      hasZero (partials_of st) = true →
      (complete_reanneal ops st).map
          (fun sr => (sr.k, sr.temp, sr.num_improved, sr.num_worse,
            sr.num_worse_accepted, sr.num_accepted, sr.k_r)) =
        Except.ok (st.k, st.temp, 0, 0, 0, 0, 0)) ∧
    ((partials_of st).any ops.is_nan_or_inf = false →
      hasZero (partials_of st) = false →
      vpos (temp_re_of st (partials_of st)) = false →
      (complete_reanneal ops st).map
          (fun sr => (sr.k, sr.temp, sr.num_improved, sr.num_worse,
            sr.num_worse_accepted, sr.num_accepted, sr.k_r)) =
        Except.ok (st.k, st.temp, 0, 0, 0, 0, 0)) ∧
    (∀ e, complete_reanneal ops st = Except.error e ↔
      ((partials_of st).any ops.is_nan_or_inf = true ∧ e = AErr.nanInfPartials)) := by
  refine ⟨fun h1 h2 => ?_, fun h1 h2 h3 => ?_, fun e => ?_⟩
  · simp [complete_reanneal, h1, h2, reset_stats, Except.map]
  · simp [complete_reanneal, h1, h2, h3, reset_stats, Except.map]
  · by_cases h1 : (partials_of st).any ops.is_nan_or_inf
    · simp [complete_reanneal, h1, eq_comm]
    · simp only [Bool.not_eq_true] at h1
      by_cases h2 : hasZero (partials_of st)
      · simp [complete_reanneal, h1, h2]
      · simp only [Bool.not_eq_true] at h2
        by_cases h3 : vpos (temp_re_of st (partials_of st)) <;>
          simp [complete_reanneal, h1, h2, h3]

/-- Witness for `complete_reanneal_degenerate` at `c2_st`, whose `partials`
evaluates to `[0]` (zero component, no NaN/Inf). -/
theorem complete_reanneal_degenerate_witness :
    (complete_reanneal opsQ c2_st).map
        (fun sr => (sr.k, sr.temp, sr.num_improved, sr.num_worse,
          sr.num_worse_accepted, sr.num_accepted, sr.k_r)) =
      Except.ok (c2_st.k, c2_st.temp, 0, 0, 0, 0, 0) :=
  (complete_reanneal_degenerate opsQ c2_st).1 rfl rfl

/-- Helper: `acceptance_check` increments exactly one of `num_improved` and
`num_worse`. -/
theorem acceptance_check_counts (ops : Ops F) (st : Anneal F) (u : F) :
    (acceptance_check ops st u).num_improved + (acceptance_check ops st u).num_worse
      = st.num_improved + st.num_worse + 1 := by
  simp only [acceptance_check]
  repeat' split
  all_goals simp
  all_goals omega

/-- C10: the state on which `step()` runs `reanneal_test` — the output of
`step_to_test`, i.e. after the acceptance check of the same call — always has
`num_improved + num_worse >= 1`, so the division inside
`accepted_vs_generated()` never has a zero denominator when `step()` evaluates
it. -/
theorem step_denominator_positive (ops : Ops F) (urand : ℕ → F) (st : Anneal F)
    (cur fuel : ℕ) (st2 : Anneal F) (cur2 : ℕ)
    (h : step_to_test ops urand st cur fuel = some (st2, cur2)) :
    1 ≤ st2.num_improved + st2.num_worse ∧
    ((st2.num_improved + st2.num_worse : ℕ) : F) ≠ 0 := by
  unfold step_to_test at h
  obtain ⟨⟨r1, r2⟩, hg, he⟩ := Option.map_eq_some'.mp h
  unfold generate_next at hg
  obtain ⟨⟨g1, g2⟩, -, hge⟩ := Option.map_eq_some'.mp hg
  injection he with he1 he2
  injection hge with hg1 hg2
  subst he1
  subst hg1
  dsimp only
  have hc := acceptance_check_counts ops (cooling_schedule ops st) (urand cur)
  refine ⟨by omega, Nat.cast_ne_zero.mpr (by omega)⟩

/-- The concrete `step_to_test` result on the initialized scenario state. -/
def c10_res : Anneal ℚ × ℕ :=
  (step_to_test opsQ urand0 { c4_sti with f_x_cand := 9 } 0 4).getD ({}, 0)

/-- Witness for `step_denominator_positive` at the initialized scenario
state. -/
theorem step_denominator_positive_witness :
    1 ≤ c10_res.1.num_improved + c10_res.1.num_worse :=
  (step_denominator_positive opsQ urand0 { c4_sti with f_x_cand := 9 } 0 4
    c10_res.1 c10_res.2 rfl).1

/-- The bounds invariant of the spec: the accepted point, the pending candidate
and every reanneal probe point lie within `[range_min, range_max]`
componentwise. -/
def BoundsInv (st : Anneal F) : Prop :=
  (vle st.x st.range_max = true ∧ vle st.range_min st.x = true) ∧
  (vle st.x_cand st.range_max = true ∧ vle st.range_min st.x_cand = true) ∧
  ∀ v ∈ st.x_set, vle v st.range_max = true ∧ vle st.range_min v = true

/-- Helper: any vector returned by `generate_parameter` passed its bounds
check, so it lies within `[range_min, range_max]`. -/
theorem generate_parameter_in_bounds (ops : Ops F) (urand : ℕ → F) (st : Anneal F)
    (xs : List F) (fc : Bool) (fuel cur : ℕ) (v : List F) (cur2 : ℕ)
    (h : generate_parameter ops urand st xs fc fuel cur = some (v, cur2)) :
    vle v st.range_max = true ∧ vle st.range_min v = true := by
  induction fuel generalizing cur with
  | zero => simp [generate_parameter] at h
  | succ f ih =>
    simp only [generate_parameter] at h
    split at h
    · -- forced-change rejection: `ok` is false and the loop retries
      rw [if_neg (by decide)] at h
      exact ih _ h
    · split at h
      · -- the bounds check passed and the candidate is returned
        rename_i hok
        simp only [Option.some.injEq, Prod.mk.injEq] at h
        obtain ⟨hv, -⟩ := h
        subst hv
        simp only [Bool.and_eq_true] at hok
        exact hok
      · exact ih _ h

/-- Helper: every probe vector produced by the `reanneal_test` generation loop
lies within the bounds. -/
theorem generate_set_in_bounds (ops : Ops F) (urand : ℕ → F) (st : Anneal F) :
    ∀ (cnt cur fuel : ℕ) (vs : List (List F)) (cur2 : ℕ),
    generate_set ops urand st cnt cur fuel = some (vs, cur2) →
    ∀ v ∈ vs, vle v st.range_max = true ∧ vle st.range_min v = true := by
  intro cnt
  induction cnt with
  | zero =>
    intro cur fuel vs cur2 h v hv
    simp only [generate_set, Option.some.injEq, Prod.mk.injEq] at h
    obtain ⟨h1, -⟩ := h
    subst h1
    simp at hv
  | succ cn ih =>
    intro cur fuel vs cur2 h v hv
    simp only [generate_set] at h
    obtain ⟨⟨r1, r2⟩, hr, h2⟩ := Option.bind_eq_some.mp h
    obtain ⟨⟨s1, s2⟩, hs, h3⟩ := Option.map_eq_some'.mp h2
    injection h3 with h31 h32
    subst h31
    rcases List.mem_cons.mp hv with hv1 | hv2
    · subst hv1
      exact generate_parameter_in_bounds ops urand st st.x true fuel cur v r2 hr
    · exact ih r2 fuel s1 s2 hs v hv2

/-- Helper: frame of `complete_reanneal`: a successful completion changes none
of the bounds vectors or parameter vectors. -/
theorem complete_reanneal_frame (ops : Ops F) (st st2 : Anneal F)
    (h : complete_reanneal ops st = Except.ok st2) :
    st2.range_min = st.range_min ∧ st2.range_max = st.range_max ∧
    st2.x = st.x ∧ st2.x_cand = st.x_cand ∧ st2.x_set = st.x_set := by
  simp only [complete_reanneal] at h
  split at h
  · exact absurd h (by simp)
  · split at h
    · injection h with h1
      subst h1
      exact ⟨rfl, rfl, rfl, rfl, rfl⟩
    · split at h <;>
      · injection h with h1
        subst h1
        exact ⟨rfl, rfl, rfl, rfl, rfl⟩

/-- Helper: frame of `acceptance_check`: ranges, candidate and probe set are
untouched; the accepted point is either the previous one or the candidate. -/
theorem acceptance_check_frame (ops : Ops F) (st : Anneal F) (u : F) :
    (acceptance_check ops st u).range_min = st.range_min ∧
    (acceptance_check ops st u).range_max = st.range_max ∧
    (acceptance_check ops st u).x_cand = st.x_cand ∧
    (acceptance_check ops st u).x_set = st.x_set ∧
    ((acceptance_check ops st u).x = st.x ∨ (acceptance_check ops st u).x = st.x_cand) := by
  simp only [acceptance_check]
  repeat' split
  all_goals simp

/-- Helper: frame of `reanneal_test`: ranges and points untouched, and the
probe set is either unchanged or freshly generated within the bounds. -/
theorem reanneal_test_frame (ops : Ops F) (urand : ℕ → F) (st : Anneal F)
    (cur fuel : ℕ) (st6 : Anneal F) (trig : Bool) (cur6 : ℕ)
    (h : reanneal_test ops urand st cur fuel = some (st6, trig, cur6)) :
    st6.range_min = st.range_min ∧ st6.range_max = st.range_max ∧
    st6.x = st.x ∧ st6.x_cand = st.x_cand ∧
    (st6.x_set = st.x_set ∨
      ∀ v ∈ st6.x_set, vle v st.range_max = true ∧ vle st.range_min v = true) := by
  unfold reanneal_test at h
  split at h
  · simp only [Option.some.injEq, Prod.mk.injEq] at h
    obtain ⟨h1, -, -⟩ := h
    subst h1
    exact ⟨rfl, rfl, rfl, rfl, Or.inl rfl⟩
  · obtain ⟨⟨s1, s2⟩, hs, h3⟩ := Option.map_eq_some'.mp h
    injection h3 with h31 h32
    subst h31
    refine ⟨rfl, rfl, rfl, rfl, Or.inr fun v hv => ?_⟩
    exact generate_set_in_bounds ops urand st st.partials_samples cur fuel s1 s2 hs v hv

/-- Helper: the pre-reanneal-test portion of `step` preserves the bounds
invariant and the ranges. -/
theorem step_to_test_bounds (ops : Ops F) (urand : ℕ → F) (st : Anneal F)
    (cur fuel : ℕ) (st5 : Anneal F) (cur5 : ℕ)
    (hB : BoundsInv st)
    (h : step_to_test ops urand st cur fuel = some (st5, cur5)) :
    BoundsInv st5 ∧ st5.range_min = st.range_min ∧ st5.range_max = st.range_max := by
  unfold step_to_test at h
  obtain ⟨⟨r1, r2⟩, hg, he⟩ := Option.map_eq_some'.mp h
  unfold generate_next at hg
  obtain ⟨⟨g1, g2⟩, hgp, hge⟩ := Option.map_eq_some'.mp hg
  injection he with he1 he2
  injection hge with hg1 hg2
  subst he1
  subst hg1
  dsimp only [BoundsInv]
  obtain ⟨haMin, haMax, haCand, haSet, haX⟩ :=
    acceptance_check_frame ops (cooling_schedule ops st) (urand cur)
  obtain ⟨hgp1, hgp2⟩ :=
    generate_parameter_in_bounds ops urand
      (acceptance_check ops (cooling_schedule ops st) (urand cur))
      (acceptance_check ops (cooling_schedule ops st) (urand cur)).x false fuel
      (cur + 1) g1 g2 hgp
  rw [haMax] at hgp1
  rw [haMin] at hgp2
  refine ⟨⟨⟨?_, ?_⟩, ⟨?_, ?_⟩, ?_⟩, ?_, ?_⟩
  · rw [haMax]
    rcases haX with hx | hx <;> rw [hx]
    · exact hB.1.1
    · exact hB.2.1.1
  · rw [haMin]
    rcases haX with hx | hx <;> rw [hx]
    · exact hB.1.2
    · exact hB.2.1.2
  · rw [haMax]
    exact hgp1
  · rw [haMin]
    exact hgp2
  · rw [haMax, haMin, haSet]
    exact hB.2.2
  · rw [haMin]
    rfl
  · rw [haMax]
    rfl

/-- C6: every vector returned by `generate_parameter` (hence every `x_cand`
from `generate_next` and every probe placed into `x_set` by `reanneal_test`)
lies within `[range_min, range_max]` componentwise; and `step()` preserves the
invariant that the accepted `x`, the candidate and the probe set are within the
bounds (so, starting from initial parameters within the ranges, every accepted
`x` stays within them for the whole run). -/
theorem bounds_invariant_holds :
    (∀ (ops : Ops F) (urand : ℕ → F) (st : Anneal F) (xs : List F) (fc : Bool)
      (fuel cur : ℕ) (v : List F) (cur2 : ℕ),
      generate_parameter ops urand st xs fc fuel cur = some (v, cur2) →
      vle v st.range_max = true ∧ vle st.range_min v = true) ∧
    (∀ (ops : Ops F) (urand : ℕ → F) (st : Anneal F) (cur fuel : ℕ)
      (st2 : Anneal F) (cur2 : ℕ),
      BoundsInv st → step ops urand st cur fuel = Except.ok (st2, cur2) →
      BoundsInv st2 ∧ st2.range_min = st.range_min ∧ st2.range_max = st.range_max) := by
  constructor
  · intro ops urand st xs fc fuel cur v cur2 h
    exact generate_parameter_in_bounds ops urand st xs fc fuel cur v cur2 h
  · intro ops urand st cur fuel st2 cur2 hB h
    unfold step at h
    dsimp only at h
    split at h
    · exact absurd h (by simp)
    rename_i st1 heq
    have hfr : st1.range_min = st.range_min ∧ st1.range_max = st.range_max ∧
        st1.x = st.x ∧ st1.x_cand = st.x_cand ∧ st1.x_set = st.x_set := by
      split at heq
      · rcases hcr : complete_reanneal ops { st with steps := st.steps + 1 } with e | sr
        · rw [hcr] at heq
          exact absurd heq (by simp [Except.map])
        · rw [hcr] at heq
          simp only [Except.map, Except.ok.injEq] at heq
          subst heq
          exact complete_reanneal_frame ops { st with steps := st.steps + 1 } sr hcr
      · injection heq with he1
        subst he1
        exact ⟨rfl, rfl, rfl, rfl, rfl⟩
    have hBs1 : BoundsInv st1 := by
      refine ⟨?_, ?_, ?_⟩
      · rw [hfr.1, hfr.2.1, hfr.2.2.1]
        exact hB.1
      · rw [hfr.1, hfr.2.1, hfr.2.2.2.1]
        exact hB.2.1
      · rw [hfr.1, hfr.2.1, hfr.2.2.2.2]
        exact hB.2.2
    split at h
    · injection h with h1
      injection h1 with h11 h12
      subst h11
      exact ⟨hBs1, hfr.1, hfr.2.1⟩
    · split at h
      · exact absurd h (by simp)
      rename_i st5 cur5 heq2
      obtain ⟨hB5, h5min, h5max⟩ :=
        step_to_test_bounds ops urand st1 cur fuel st5 cur5 hBs1 heq2
      split at h
      · exact absurd h (by simp)
      rename_i st6 trig cur6 heq3
      obtain ⟨h6min, h6max, h6x, h6cand, h6set⟩ :=
        reanneal_test_frame ops urand st5 cur5 fuel st6 trig cur6 heq3
      injection h with h1
      injection h1 with h11 h12
      subst h11
      dsimp only [BoundsInv]
      refine ⟨⟨⟨?_, ?_⟩, ⟨?_, ?_⟩, ?_⟩, ?_, ?_⟩
      · rw [h6max, h6x]
        exact hB5.1.1
      · rw [h6min, h6x]
        exact hB5.1.2
      · rw [h6max, h6cand]
        exact hB5.2.1.1
      · rw [h6min, h6cand]
        exact hB5.2.1.2
      · rw [h6min, h6max]
        rcases h6set with hset | hset
        · rw [hset]
          exact hB5.2.2
        · exact hset
      · rw [h6min, h5min]
        exact hfr.1
      · rw [h6max, h5max]
        exact hfr.2.1

/-- The concrete candidate generated from the initialized scenario state. -/
def c6_gp : List ℚ × ℕ :=
  (generate_parameter opsQ urand0 c4_sti c4_sti.x false 4 0).getD ([], 0)

/-- Witness for `bounds_invariant_holds`: both parts applied at concrete
inputs — a generated candidate is within the ranges, and the first scenario
step preserves the invariant. -/
theorem bounds_invariant_holds_witness :
    vle c6_gp.1 c4_sti.range_max = true ∧ BoundsInv c4_s1.1 := by
  constructor
  · exact (bounds_invariant_holds.1 opsQ urand0 c4_sti c4_sti.x false 4 0
      c6_gp.1 c6_gp.2 rfl).1
  · exact (bounds_invariant_holds.2 opsQ urand0 { c4_sti with f_x_cand := 9 } 0 4
      c4_s1.1 c4_s1.2 ⟨⟨rfl, rfl⟩, ⟨rfl, rfl⟩, by decide⟩ rfl).1

end Asa
